import Mathlib

/-!
Shallow embedding of the terraform-provider-edgecenter resource handlers.

The Go handlers are glue between Terraform's plugin SDK and the EdgeCenter
cloud SDK.  External SDK calls (`lbpools.Create`, `tasks.Get`,
`tasks.WaitTaskAndReturnResult`, `routers.Get`, ...) are modelled as oracle
parameters: each handler is a pure function of the results those calls would
return.  Machine `int` values become `Int`; Go `error` values become an
explicit error type with wrapping, so that `errors.As(err, &Default404Error)`
can be modelled as a chain search.
-/

namespace EdgeCenter

/-- A Go `error` value as used by the provider: either the typed
`edgecloud.Default404Error` sentinel, a plain error created with
`fmt.Errorf` without `%w`, or an error wrapping another one via `%w`.
`errors.As(err, &Default404Error)` searches the wrap chain. -/
inductive GoErr where
  | default404 (msg : String)
  | simple (msg : String)
  | wrap (msg : String) (inner : GoErr)
deriving DecidableEq, Repr

/-- `errors.As(err, &edgecloud.Default404Error{})`: true iff the wrap chain
contains the typed 404 sentinel. -/
def GoErr.is404 : GoErr → Bool
  | .default404 _ => true
  | .simple _ => false
  | .wrap _ inner => inner.is404

/-- A Terraform diagnostic as produced by the handlers: `diag.FromErr(err)`
or `diag.Errorf(...)`. -/
inductive Diag where
  | fromErr (e : GoErr)
  | errorf (msg : String)
deriving DecidableEq, Repr

/-- `tasks.TaskResults` as returned by the SDK create/update/delete calls:
the handlers only use the `Tasks` slice of task IDs. -/
structure TaskResults where
  Tasks : List String
deriving DecidableEq, Repr

/-- Opaque task info returned by `tasks.Get(client, id).Extract()`; the
handlers only pass it to the SDK's `Extract...FromTask` helpers. -/
structure TaskInfo where
  raw : String
deriving DecidableEq, Repr

/-- The observable outcome of a create/delete handler:
 * `panic`   - a Go runtime panic (nil dereference / index out of range),
 * `failure d` - the handler returned the diagnostic `d` without calling
   `d.SetId`, so the Terraform resource ID is left untouched,
 * `success id` - the handler called `d.SetId(id)` and returned without an
   error diagnostic (for delete handlers `id = ""`, i.e. the ID is cleared). -/
inductive HandlerOutcome where
  | panic
  | failure (d : Diag)
  | success (id : String)
deriving DecidableEq, Repr

/-- The SDK's generic poller `tasks.WaitTaskAndReturnResult(client, task,
stopOnTaskError, timeout, checker)` (implemented in the external SDK, not in
this repository), abstracted as an oracle: it receives the task ID, the
timeout in seconds, and the repository's checker closure, and produces the
checker's final value or an error. -/
def WaitOracle (α : Type) := String → Nat → (String → Except GoErr α) → Except GoErr α

/-! ## Constants (resource_edgecenter_lbpool.go, resource_edgecenter_router.go,
baremetal instance file) -/

def LBPoolsCreateTimeout : Nat := 2400

def RouterDeleting : Nat := 1200

def RouterCreatingTimeout : Nat := 1200

def BmInstanceDeleting : Nat := 1200

def BmInstanceCreatingTimeout : Nat := 3600

/-! ## C4 / C5: LB member validators (lbmember resource file) -/

def minWeight : Int := 0

def maxWeight : Int := 256

/-- The `ValidateDiagFunc` of the LB member `weight` schema attribute:
`if v >= minWeight && v <= maxWeight { return nil }` else `diag.Errorf`.
`none` models the empty diagnostics (acceptance). -/
def lbMemberWeightValidate (v : Int) : Option Diag :=
  if v ≥ minWeight ∧ v ≤ maxWeight then none
  else some (.errorf "Valid values: 0 to 256")

/-- The result of Go's `net.ParseIP` (standard library, external to the
repository), abstracted: `none` models a `nil` return. -/
structure GoIP where
  raw : String
deriving DecidableEq, Repr

/-- The `ValidateDiagFunc` of the LB member `address` schema attribute:
`ip := net.ParseIP(v); if ip != nil { return {} }` else `diag.FromErr`. -/
def lbMemberAddressValidate (parseIP : String → Option GoIP) (v : String) : Option Diag :=
  match parseIP v with
  | some _ => none
  | none => some (.fromErr (.simple ("must be a valid ip, got: " ++ v)))

/-! ## C6: LB pool `lb_algorithm` validator (resource_edgecenter_lbpool.go) -/

/-- SDK constant `types.LoadBalancerAlgorithmRoundRobin` (external SDK;
value as documented in the schema description). -/
def LoadBalancerAlgorithmRoundRobin : String := "ROUND_ROBIN"

/-- SDK constant `types.LoadBalancerAlgorithmLeastConnections`. -/
def LoadBalancerAlgorithmLeastConnections : String := "LEAST_CONNECTIONS"

/-- SDK constant `types.LoadBalancerAlgorithmSourceIP`. -/
def LoadBalancerAlgorithmSourceIP : String := "SOURCE_IP"

/-- SDK constant `types.LoadBalancerAlgorithmSourceIPPort`. -/
def LoadBalancerAlgorithmSourceIPPort : String := "SOURCE_IP_PORT"

/-- The rejection message of the `lb_algorithm` validator, listing the
available values as the Go `diag.Errorf` format string does. -/
def lbAlgorithmErrMsg (v : String) : String :=
  "wrong type " ++ v ++ ", available values is 'ROUND_ROBIN', 'LEAST_CONNECTIONS', 'SOURCE_IP', 'SOURCE_IP_PORT'"

/-- The `ValidateDiagFunc` of the LB pool `lb_algorithm` schema attribute:
a `switch` on the four SDK algorithm constants returning empty diagnostics,
with `diag.Errorf` in the default case. -/
def lbPoolAlgorithmValidate (v : String) : Option Diag :=
  if v = LoadBalancerAlgorithmRoundRobin ∨ v = LoadBalancerAlgorithmLeastConnections
      ∨ v = LoadBalancerAlgorithmSourceIP ∨ v = LoadBalancerAlgorithmSourceIPPort then
    none
  else
    some (.errorf (lbAlgorithmErrMsg v))

/-! ## Theorems for C4, C5, C6 -/

/-- C4: the LB member `weight` validator accepts an integer `v` without a
diagnostic iff `0 ≤ v ≤ 256` (both bounds inclusive); outside that range it
returns an error diagnostic. -/
theorem C4_weight_validator (v : Int) :
    (lbMemberWeightValidate v = none ↔ 0 ≤ v ∧ v ≤ 256) ∧
    (¬ (0 ≤ v ∧ v ≤ 256) → lbMemberWeightValidate v = some (.errorf "Valid values: 0 to 256")) := by
  constructor
  · unfold lbMemberWeightValidate minWeight maxWeight
    split
    · simp_all
    · simp_all
  · intro h
    unfold lbMemberWeightValidate minWeight maxWeight
    split
    · omega
    · rfl

/-- C4 witness: the bounds are inclusive and values outside are rejected,
checked at 0, 256, 257 and -1. -/
theorem C4_weight_validator_witness :
    lbMemberWeightValidate 0 = none ∧ lbMemberWeightValidate 256 = none ∧
    lbMemberWeightValidate 257 = some (.errorf "Valid values: 0 to 256") ∧
    lbMemberWeightValidate (-1) = some (.errorf "Valid values: 0 to 256") := by
  refine ⟨(C4_weight_validator 0).1.mpr (by decide),
          (C4_weight_validator 256).1.mpr (by decide),
          (C4_weight_validator 257).2 (by decide),
          (C4_weight_validator (-1)).2 (by decide)⟩

/-- C5: the LB member `address` validator accepts a string `v` without a
diagnostic iff `net.ParseIP` (modelled as the oracle `parseIP`) returns
non-nil on `v`; every non-parsing string is rejected with an error
diagnostic. -/
theorem C5_address_validator (parseIP : String → Option GoIP) (v : String) :
    (lbMemberAddressValidate parseIP v = none ↔ (parseIP v).isSome) ∧
    ((parseIP v).isSome = false →
      lbMemberAddressValidate parseIP v
        = some (.fromErr (.simple ("must be a valid ip, got: " ++ v)))) := by
  unfold lbMemberAddressValidate
  cases h : parseIP v <;> simp

/-- C5 witness: with a parse oracle accepting exactly `10.0.0.1`, that
address passes and a non-parsing string is rejected. -/
theorem C5_address_validator_witness :
    lbMemberAddressValidate
        (fun s => if s = "10.0.0.1" then some ⟨"10.0.0.1"⟩ else none) "10.0.0.1"
      = none ∧
    lbMemberAddressValidate
        (fun s => if s = "10.0.0.1" then some ⟨"10.0.0.1"⟩ else none) "not-an-ip"
      = some (.fromErr (.simple ("must be a valid ip, got: " ++ "not-an-ip"))) := by
  refine ⟨(C5_address_validator
      (fun s => if s = "10.0.0.1" then some ⟨"10.0.0.1"⟩ else none) "10.0.0.1").1.mpr
      (by decide),
    (C5_address_validator
      (fun s => if s = "10.0.0.1" then some ⟨"10.0.0.1"⟩ else none) "not-an-ip").2
      (by decide)⟩

/-- C6: the LB pool `lb_algorithm` validator accepts a string iff it is one
of the four documented algorithm values, and rejects every other string with
a diagnostic listing the available values. -/
theorem C6_lb_algorithm_validator (v : String) :
    (lbPoolAlgorithmValidate v = none ↔
      v = "ROUND_ROBIN" ∨ v = "LEAST_CONNECTIONS" ∨ v = "SOURCE_IP" ∨ v = "SOURCE_IP_PORT") ∧
    (¬ (v = "ROUND_ROBIN" ∨ v = "LEAST_CONNECTIONS" ∨ v = "SOURCE_IP" ∨ v = "SOURCE_IP_PORT") →
      lbPoolAlgorithmValidate v = some (.errorf (lbAlgorithmErrMsg v))) := by
  unfold lbPoolAlgorithmValidate LoadBalancerAlgorithmRoundRobin
    LoadBalancerAlgorithmLeastConnections LoadBalancerAlgorithmSourceIP
    LoadBalancerAlgorithmSourceIPPort
  constructor
  · split
    · simp_all
    · simp_all
  · intro h
    split
    · exact absurd (by assumption) h
    · rfl

/-- C6 witness: the four documented values are accepted and another string
is rejected with the listing message. -/
theorem C6_lb_algorithm_validator_witness :
    lbPoolAlgorithmValidate "ROUND_ROBIN" = none ∧
    lbPoolAlgorithmValidate "SOURCE_IP_PORT" = none ∧
    lbPoolAlgorithmValidate "RANDOM" = some (.errorf (lbAlgorithmErrMsg "RANDOM")) := by
  refine ⟨(C6_lb_algorithm_validator "ROUND_ROBIN").1.mpr (by decide),
          (C6_lb_algorithm_validator "SOURCE_IP_PORT").1.mpr (by decide),
          (C6_lb_algorithm_validator "RANDOM").2 (by decide)⟩

/-! ## C7: resourceLBPoolRead (resource_edgecenter_lbpool.go) -/

/-- An element of `lb.LoadBalancers` / `lb.Listeners` in the SDK response:
only the `ID` field is used by the handler. -/
structure SubResource where
  ID : String
deriving DecidableEq, Repr

/-- `lb.HealthMonitor` in the SDK pool response (fields used by the read
handler; `HTTPMethod` is a nullable pointer). -/
structure HealthMonitor where
  ID : String
  type : String
  Delay : Int
  Timeout : Int
  MaxRetries : Int
  MaxRetriesDown : Int
  URLPath : String
  ExpectedCodes : String
  HTTPMethod : Option String
deriving DecidableEq, Repr

/-- `lb.SessionPersistence` in the SDK pool response. -/
structure SessionPersistence where
  type : String
  CookieName : String
  PersistenceGranularity : String
  PersistenceTimeout : Int
deriving DecidableEq, Repr

/-- A pool member in the SDK pool response (only the `ID` field is needed by
the delete checker). -/
structure PoolMember where
  ID : String
deriving DecidableEq, Repr

/-- The SDK pool response `lbpools.Get(client, id).Extract()` (fields used
by the handlers in this repository). -/
structure LBPool where
  ID : String
  Name : String
  LoadBalancerAlgorithm : String
  Protocol : String
  LoadBalancers : List SubResource
  Listeners : List SubResource
  HealthMonitor : Option HealthMonitor
  SessionPersistence : Option SessionPersistence
  Members : List PoolMember
deriving DecidableEq, Repr

/-- The `health_monitor` schema map written by the read handler; the
`http_method` key is present only when the response pointer is non-nil. -/
structure HealthMonitorState where
  id : String
  type : String
  delay : Int
  timeout : Int
  maxRetries : Int
  maxRetriesDown : Int
  urlPath : String
  expectedCodes : String
  httpMethod : Option String
deriving DecidableEq, Repr

/-- The `session_persistence` schema map written by the read handler. -/
structure SessionPersistenceState where
  type : String
  cookieName : String
  persistenceGranularity : String
  persistenceTimeout : Int
deriving DecidableEq, Repr

/-- The schema fields `resourceLBPoolRead` may write via `d.Set`; `none`
means the field was not written by the read. -/
structure LBPoolReadState where
  name : Option String
  lbAlgorithm : Option String
  protocol : Option String
  loadbalancerID : Option String
  listenerID : Option String
  healthMonitor : Option HealthMonitorState
  sessionPersistence : Option SessionPersistenceState
deriving DecidableEq, Repr

/-- The state before the read handler writes anything. -/
def emptyLBPoolReadState : LBPoolReadState :=
  ⟨none, none, none, none, none, none, none⟩

/-- The `health_monitor` map literal built by the read handler from the
response (the `http_method` key only when `HTTPMethod` is non-nil). -/
def mirrorHealthMonitor (hm : HealthMonitor) : HealthMonitorState :=
  ⟨hm.ID, hm.type, hm.Delay, hm.Timeout, hm.MaxRetries, hm.MaxRetriesDown,
   hm.URLPath, hm.ExpectedCodes, hm.HTTPMethod⟩

/-- The `session_persistence` map literal built by the read handler. -/
def mirrorSessionPersistence (sp : SessionPersistence) : SessionPersistenceState :=
  ⟨sp.type, sp.CookieName, sp.PersistenceGranularity, sp.PersistenceTimeout⟩

/-- `resourceLBPoolRead` over the result of `lbpools.Get(client, d.Id())`:
on an SDK error it returns `diag.FromErr(err)`; otherwise it performs the
sequence of `d.Set` calls of the source, writing `loadbalancer_id` /
`listener_id` only when the respective list is non-empty and
`health_monitor` / `session_persistence` only when the respective response
field is non-nil.  (The trailing `revertState` on `project_id`/`region_id`
touches fields outside this record.) -/
def resourceLBPoolRead (get : Except GoErr LBPool) : Except Diag LBPoolReadState :=
  match get with
  | .error e => .error (.fromErr e)
  | .ok lb =>
    let st := { emptyLBPoolReadState with name := some lb.Name }
    let st := { st with lbAlgorithm := some lb.LoadBalancerAlgorithm }
    let st := { st with protocol := some lb.Protocol }
    let st :=
      if lb.LoadBalancers.length > 0 then
        { st with loadbalancerID := some (lb.LoadBalancers.headD ⟨""⟩).ID }
      else st
    let st :=
      if lb.Listeners.length > 0 then
        { st with listenerID := some (lb.Listeners.headD ⟨""⟩).ID }
      else st
    let st :=
      match lb.HealthMonitor with
      | some hm => { st with healthMonitor := some (mirrorHealthMonitor hm) }
      | none => st
    let st :=
      match lb.SessionPersistence with
      | some sp => { st with sessionPersistence := some (mirrorSessionPersistence sp) }
      | none => st
    .ok st

/-- C7: after a successful `resourceLBPoolRead`, the schema state mirrors
the SDK response: `name`, `lb_algorithm`, `protocol` equal the pool fields;
`loadbalancer_id` / `listener_id` are set to the first element's ID exactly
when the respective list is non-empty; `health_monitor` /
`session_persistence` are set exactly when the response fields are non-nil,
to the mirrored maps. -/
theorem C7_lbpool_read_mirror (lb : LBPool) (st : LBPoolReadState)
    (h : resourceLBPoolRead (.ok lb) = .ok st) :
    st.name = some lb.Name ∧
    st.lbAlgorithm = some lb.LoadBalancerAlgorithm ∧
    st.protocol = some lb.Protocol ∧
    (∀ l rest, lb.LoadBalancers = l :: rest → st.loadbalancerID = some l.ID) ∧
    (lb.LoadBalancers = [] → st.loadbalancerID = none) ∧
    (∀ l rest, lb.Listeners = l :: rest → st.listenerID = some l.ID) ∧
    (lb.Listeners = [] → st.listenerID = none) ∧
    (∀ hm, lb.HealthMonitor = some hm →
      st.healthMonitor = some (mirrorHealthMonitor hm)) ∧
    (lb.HealthMonitor = none → st.healthMonitor = none) ∧
    (∀ sp, lb.SessionPersistence = some sp →
      st.sessionPersistence = some (mirrorSessionPersistence sp)) ∧
    (lb.SessionPersistence = none → st.sessionPersistence = none) := by
  cases lb with
  | mk pID pName pAlg pProto pLBs pLs pHM pSP pMems =>
    cases pLBs <;> cases pLs <;> cases pHM <;> cases pSP <;>
      (simp only [resourceLBPoolRead, emptyLBPoolReadState, List.length_cons,
          List.length_nil, List.headD, gt_iff_lt, Nat.lt_irrefl, if_false,
          Nat.succ_pos, if_true, Except.ok.injEq] at h
       subst h
       refine ⟨rfl, rfl, rfl, ?_, ?_, ?_, ?_, ?_, ?_, ?_, ?_⟩ <;>
         first
         | (intro x rest hx; simp_all)
         | (intro hx; simp_all))

/-- C7 witness: a concrete pool with one load balancer, no listeners, a
health monitor and no session persistence is mirrored as claimed. -/
theorem C7_lbpool_read_mirror_witness :
    (resourceLBPoolRead (.ok
        ⟨"pid", "pool1", "ROUND_ROBIN", "HTTP", [⟨"lb1"⟩], [],
         some ⟨"hm1", "HTTP", 5, 3, 2, 1, "/", "200", none⟩, none, []⟩)
      = .ok ⟨some "pool1", some "ROUND_ROBIN", some "HTTP", some "lb1", none,
             some ⟨"hm1", "HTTP", 5, 3, 2, 1, "/", "200", none⟩, none⟩) ∧
    (some "lb1" = some "lb1" ∧ (none : Option String) = none) := by
  have h : resourceLBPoolRead (.ok
        ⟨"pid", "pool1", "ROUND_ROBIN", "HTTP", [⟨"lb1"⟩], [],
         some ⟨"hm1", "HTTP", 5, 3, 2, 1, "/", "200", none⟩, none, []⟩)
      = .ok ⟨some "pool1", some "ROUND_ROBIN", some "HTTP", some "lb1", none,
             some ⟨"hm1", "HTTP", 5, 3, 2, 1, "/", "200", none⟩, none⟩ := by rfl
  have hm := C7_lbpool_read_mirror _ _ h
  exact ⟨h, hm.2.2.2.1 ⟨"lb1"⟩ [] rfl, hm.2.2.2.2.2.2.1 rfl⟩

/-! ## C10: dataSourceImageRead (data_source_edgecenter_image.go) -/

/-- An SDK image as returned by `images.ListAll` (fields used by the data
source). -/
structure Image where
  ID : String
  Name : String
  MinDisk : Int
  MinRAM : Int
  OsDistro : String
  OsVersion : String
  Description : String
deriving DecidableEq, Repr

/-- Go's `strings.HasPrefix(s, pre)` on rune lists. -/
def goHasPrefixChars : List Char → List Char → Bool
  | _, [] => true
  | [], _ :: _ => false
  | c :: cs, p :: ps => c = p && goHasPrefixChars cs ps

/-- Go's `strings.HasPrefix` on strings. -/
def goHasPrefix (s pre : String) : Bool :=
  goHasPrefixChars s.data pre.data

/-- The match predicate of the selection loop:
`strings.HasPrefix(strings.ToLower(img.Name), strings.ToLower(name))`.
`strings.ToLower` is Go standard library, abstracted as the `toLower`
oracle. -/
def imageNameMatches (toLower : String → String) (name : String) (img : Image) : Bool :=
  goHasPrefix (toLower img.Name) (toLower name)

/-- The selection loop of `dataSourceImageRead`: walk `allImages` in SDK
order and `break` at the first image whose lowered name has the lowered
requested name as a prefix (`found`/`image` variables). -/
def findImage (toLower : String → String) (allImages : List Image) (name : String) :
    Option Image :=
  allImages.find? (imageNameMatches toLower name)

/-- The computed fields written by a successful `dataSourceImageRead`
(besides `d.SetId`; the `project_id`/`region_id`/metadata writes are outside
this record). -/
structure ImageReadState where
  id : String
  minDisk : Int
  minRAM : Int
  osDistro : String
  osVersion : String
  description : String
deriving DecidableEq, Repr

/-- `dataSourceImageRead` over the result of `images.ListAll`: a list error
becomes `diag.FromErr`; with no matching image it returns the
`"image with name ... not found"` diagnostic before any `d.SetId`/`d.Set`
call (modelled by the `Except.error` branch carrying no state); otherwise it
sets the ID and computed fields from the selected image. -/
def dataSourceImageRead (toLower : String → String)
    (listAll : Except GoErr (List Image)) (name : String) :
    Except Diag ImageReadState :=
  match listAll with
  | .error e => .error (.fromErr e)
  | .ok allImages =>
    match findImage toLower allImages name with
    | none => .error (.errorf ("image with name " ++ name ++ " not found"))
    | some image =>
      .ok ⟨image.ID, image.MinDisk, image.MinRAM, image.OsDistro, image.OsVersion,
           image.Description⟩

/-- `List.find?` returns the first element satisfying the predicate: the
list splits into a prefix of non-matching elements, the result, and a
tail. -/
theorem findFirstSplit {α : Type} (p : α → Bool) (l : List α) (b : α)
    (h : l.find? p = some b) :
    ∃ pre post, l = pre ++ b :: post ∧ p b = true ∧ ∀ x ∈ pre, p x = false := by
  induction l with
  | nil => simp at h
  | cons a t ih =>
    cases hp : p a with
    | true =>
      rw [List.find?_cons_of_pos _ hp] at h
      obtain rfl : a = b := by injection h
      exact ⟨[], t, rfl, hp, by simp⟩
    | false =>
      rw [List.find?_cons_of_neg _ (by simp [hp])] at h
      obtain ⟨pre, post, hl, hb, hpre⟩ := ih h
      refine ⟨a :: pre, post, by simp [hl], hb, ?_⟩
      intro x hx
      rcases List.mem_cons.mp hx with rfl | hx
      · exact hp
      · exact hpre x hx

/-- C10: `dataSourceImageRead` selects the first image, in SDK list order,
whose name case-insensitively starts with the requested name (prefix match);
when no image matches it returns the `"image with name ... not found"` error
diagnostic and writes no resource ID or computed fields. -/
theorem C10_image_name_lookup (toLower : String → String)
    (allImages : List Image) (name : String) :
    ((∀ img ∈ allImages, imageNameMatches toLower name img = false) →
      dataSourceImageRead toLower (.ok allImages) name
        = .error (.errorf ("image with name " ++ name ++ " not found"))) ∧
    (∀ st, dataSourceImageRead toLower (.ok allImages) name = .ok st →
      ∃ pre img post, allImages = pre ++ img :: post ∧
        imageNameMatches toLower name img = true ∧
        (∀ x ∈ pre, imageNameMatches toLower name x = false) ∧
        st = ⟨img.ID, img.MinDisk, img.MinRAM, img.OsDistro, img.OsVersion,
              img.Description⟩) := by
  constructor
  · intro hnone
    have hfind : findImage toLower allImages name = none := by
      unfold findImage
      rw [List.find?_eq_none]
      intro x hx
      simp [hnone x hx]
    simp only [dataSourceImageRead]
    rw [hfind]
  · intro st hst
    simp only [dataSourceImageRead] at hst
    cases hfind : findImage toLower allImages name with
    | none => rw [hfind] at hst; exact absurd hst (by simp)
    | some img =>
      rw [hfind] at hst
      obtain ⟨pre, post, hl, hb, hpre⟩ :=
        findFirstSplit (imageNameMatches toLower name) allImages img hfind
      exact ⟨pre, img, post, hl, hb, hpre, by injection hst with h; exact h.symm⟩

/-- C10 witness: with three images the first prefix match (not an exact
name equality) is selected past a non-matching image, and an unmatched
request errors. -/
theorem C10_image_name_lookup_witness :
    (dataSourceImageRead id (.ok
        [⟨"i1", "fedora-37", 3, 256, "Fedora", "37", "f"⟩,
         ⟨"i2", "ubuntu-20.04", 5, 512, "Ubuntu", "20.04", "u"⟩,
         ⟨"i3", "ubuntu-22.04", 5, 512, "Ubuntu", "22.04", "u"⟩]) "ubuntu"
      = .ok ⟨"i2", 5, 512, "Ubuntu", "20.04", "u"⟩) ∧
    (∃ pre img post,
        [(⟨"i1", "fedora-37", 3, 256, "Fedora", "37", "f"⟩ : Image),
         ⟨"i2", "ubuntu-20.04", 5, 512, "Ubuntu", "20.04", "u"⟩,
         ⟨"i3", "ubuntu-22.04", 5, 512, "Ubuntu", "22.04", "u"⟩] = pre ++ img :: post ∧
        imageNameMatches id "ubuntu" img = true ∧
        (∀ x ∈ pre, imageNameMatches id "ubuntu" x = false) ∧
        (⟨"i2", 5, 512, "Ubuntu", "20.04", "u"⟩ : ImageReadState)
          = ⟨img.ID, img.MinDisk, img.MinRAM, img.OsDistro, img.OsVersion,
             img.Description⟩) ∧
    (dataSourceImageRead id (.ok
        [⟨"i1", "fedora-37", 3, 256, "Fedora", "37", "f"⟩]) "ubuntu"
      = .error (.errorf ("image with name " ++ "ubuntu" ++ " not found"))) := by
  refine ⟨by rfl, ?_, ?_⟩
  · exact (C10_image_name_lookup id
      [⟨"i1", "fedora-37", 3, 256, "Fedora", "37", "f"⟩,
       ⟨"i2", "ubuntu-20.04", 5, 512, "Ubuntu", "20.04", "u"⟩,
       ⟨"i3", "ubuntu-22.04", 5, 512, "Ubuntu", "22.04", "u"⟩] "ubuntu").2
      ⟨"i2", 5, 512, "Ubuntu", "20.04", "u"⟩ (by rfl)
  · exact (C10_image_name_lookup id
      [⟨"i1", "fedora-37", 3, 256, "Fedora", "37", "f"⟩] "ubuntu").1 (by decide)

/-! ## C9: resourceLBPoolUpdate (resource_edgecenter_lbpool.go) -/

/-- The result of `extractHealthMonitorMap(d)` (a helper outside the given
sources; its payload is opaque here, only its identity matters). -/
structure CreateHealthMonitorOpts where
  raw : String
deriving DecidableEq, Repr

/-- The result of `extractSessionPersistenceMap(d)` (opaque payload). -/
structure CreateSessionPersistenceOpts where
  raw : String
deriving DecidableEq, Repr

/-- `lbpools.UpdateOpts` as assembled by `resourceLBPoolUpdate`: the name is
always set; the other fields only when the corresponding attribute changed
(`none` models the Go zero value / nil pointer). -/
structure LBPoolUpdateOpts where
  Name : String
  LBPoolAlgorithm : Option String
  HealthMonitor : Option CreateHealthMonitorOpts
  SessionPersistence : Option CreateSessionPersistenceOpts
deriving DecidableEq, Repr

/-- The inputs `resourceLBPoolUpdate` reads from the Terraform resource
data: current attribute values and the `d.HasChange(...)` answers
(`hasChangeName` is carried to state the frame property; the handler never
queries it). -/
structure LBPoolUpdateInput where
  name : String
  lbAlgorithm : String
  healthMonitorOpts : Option CreateHealthMonitorOpts
  sessionPersistenceOpts : Option CreateSessionPersistenceOpts
  hasChangeLBAlgorithm : Bool
  hasChangeHealthMonitor : Bool
  hasChangeSessionPersistence : Bool
  hasChangeName : Bool
deriving DecidableEq, Repr

/-- The externally observable SDK-facing actions of `resourceLBPoolUpdate`,
in order. -/
inductive LBPoolUpdateAction where
  | sdkUpdate (opts : LBPoolUpdateOpts)
  | taskWait
  | setLastUpdated
  | readPool
deriving DecidableEq, Repr

/-- Final status of the update handler. -/
inductive UpdateResult where
  | panic
  | failure (d : Diag)
  | done
deriving DecidableEq, Repr

/-- The task-wait checker closure of `resourceLBPoolUpdate`: gets the task
and returns `nil, nil`. -/
def lbPoolUpdateChecker (getTask : String → Except GoErr TaskInfo) (task : String) :
    Except GoErr Unit :=
  match getTask task with
  | .error e => .error (.wrap "cannot get task" e)
  | .ok _ => .ok ()

/-- The tail of `resourceLBPoolUpdate` from the `lbpools.Update` call on:
update, wait on the first task, set `last_updated`, re-read. -/
def lbPoolUpdateCallPhase (opts : LBPoolUpdateOpts)
    (sdkUpdate : LBPoolUpdateOpts → Except GoErr TaskResults)
    (getTask : String → Except GoErr TaskInfo) (wait : WaitOracle Unit) :
    List LBPoolUpdateAction × UpdateResult :=
  match sdkUpdate opts with
  | .error e => ([.sdkUpdate opts], .failure (.fromErr e))
  | .ok results =>
    match results.Tasks with
    | [] => ([.sdkUpdate opts], .panic)
    | taskID :: _ =>
      match wait taskID LBPoolsCreateTimeout (lbPoolUpdateChecker getTask) with
      | .error e => ([.sdkUpdate opts, .taskWait], .failure (.fromErr e))
      | .ok _ => ([.sdkUpdate opts, .taskWait, .setLastUpdated, .readPool], .done)

/-- `resourceLBPoolUpdate`: builds `UpdateOpts` with the current name, adds
algorithm / health monitor / session persistence only on `d.HasChange`,
setting the `change` flag; without any change it only re-reads; otherwise it
runs the update call phase. -/
def resourceLBPoolUpdate (inp : LBPoolUpdateInput)
    (sdkUpdate : LBPoolUpdateOpts → Except GoErr TaskResults)
    (getTask : String → Except GoErr TaskInfo) (wait : WaitOracle Unit) :
    List LBPoolUpdateAction × UpdateResult :=
  let opts := LBPoolUpdateOpts.mk inp.name none none none
  let (opts, change) :=
    if inp.hasChangeLBAlgorithm then
      ({ opts with LBPoolAlgorithm := some inp.lbAlgorithm }, true)
    else (opts, false)
  let (opts, change) :=
    if inp.hasChangeHealthMonitor then
      ({ opts with HealthMonitor := inp.healthMonitorOpts }, true)
    else (opts, change)
  let (opts, change) :=
    if inp.hasChangeSessionPersistence then
      ({ opts with SessionPersistence := inp.sessionPersistenceOpts }, true)
    else (opts, change)
  if !change then ([.readPool], .done)
  else lbPoolUpdateCallPhase opts sdkUpdate getTask wait

/-- Whatever the SDK answers, the update call phase starts with the
`lbpools.Update` call. -/
theorem updatePhaseHasUpdateCall (opts : LBPoolUpdateOpts)
    (u : LBPoolUpdateOpts → Except GoErr TaskResults)
    (g : String → Except GoErr TaskInfo) (w : WaitOracle Unit) :
    ∃ o, LBPoolUpdateAction.sdkUpdate o ∈ (lbPoolUpdateCallPhase opts u g w).1 := by
  refine ⟨opts, ?_⟩
  unfold lbPoolUpdateCallPhase
  cases hu : u opts with
  | error e => simp [hu]
  | ok results =>
    cases results with
    | mk tasks =>
      cases tasks with
      | nil => simp [hu]
      | cons t ts =>
        cases hw : w t LBPoolsCreateTimeout (lbPoolUpdateChecker g) <;> simp [hu, hw]

/-- C9: `resourceLBPoolUpdate` calls the SDK `Update` iff at least one of
`lb_algorithm`, `health_monitor`, `session_persistence` changed; when none
of those three changed (whatever `name` did) it only re-reads the resource,
with no update call, no task wait and no `last_updated` write; task wait and
`last_updated` writes only happen when one of the three changed. -/
theorem C9_lbpool_update_frame (inp : LBPoolUpdateInput)
    (u : LBPoolUpdateOpts → Except GoErr TaskResults)
    (g : String → Except GoErr TaskInfo) (w : WaitOracle Unit) :
    ((∃ o, LBPoolUpdateAction.sdkUpdate o ∈ (resourceLBPoolUpdate inp u g w).1) ↔
      (inp.hasChangeLBAlgorithm || inp.hasChangeHealthMonitor
        || inp.hasChangeSessionPersistence) = true) ∧
    ((inp.hasChangeLBAlgorithm || inp.hasChangeHealthMonitor
        || inp.hasChangeSessionPersistence) = false →
      resourceLBPoolUpdate inp u g w = ([.readPool], .done)) ∧
    (LBPoolUpdateAction.taskWait ∈ (resourceLBPoolUpdate inp u g w).1 →
      (inp.hasChangeLBAlgorithm || inp.hasChangeHealthMonitor
        || inp.hasChangeSessionPersistence) = true) ∧
    (LBPoolUpdateAction.setLastUpdated ∈ (resourceLBPoolUpdate inp u g w).1 →
      (inp.hasChangeLBAlgorithm || inp.hasChangeHealthMonitor
        || inp.hasChangeSessionPersistence) = true) := by
  obtain ⟨nm, alg, hmo, spo, cA, cH, cS, cN⟩ := inp
  cases cA <;> cases cH <;> cases cS
  · simp [resourceLBPoolUpdate]
  all_goals
    refine ⟨?_, ?_, ?_, ?_⟩
    · simp [resourceLBPoolUpdate, updatePhaseHasUpdateCall]
    · intro hc; simp at hc
    · intro _; simp
    · intro _; simp

/-- C9 witness: with only `name` changed the handler just re-reads; with
`lb_algorithm` changed the update call happens. -/
theorem C9_lbpool_update_frame_witness :
    (resourceLBPoolUpdate ⟨"n", "ROUND_ROBIN", none, none, false, false, false, true⟩
        (fun _ => .error (.simple "unused")) (fun _ => .error (.simple "unused"))
        (fun _ _ _ => .ok ()) = ([.readPool], .done)) ∧
    (∃ o, LBPoolUpdateAction.sdkUpdate o ∈
      (resourceLBPoolUpdate ⟨"n", "ROUND_ROBIN", none, none, true, false, false, false⟩
        (fun _ => .error (.simple "unused")) (fun _ => .error (.simple "unused"))
        (fun _ _ _ => .ok ())).1) := by
  refine ⟨(C9_lbpool_update_frame ⟨"n", "ROUND_ROBIN", none, none, false, false, false, true⟩
      (fun _ => .error (.simple "unused")) (fun _ => .error (.simple "unused"))
      (fun _ _ _ => .ok ())).2.1 (by decide), ?_⟩
  exact (C9_lbpool_update_frame ⟨"n", "ROUND_ROBIN", none, none, true, false, false, false⟩
      (fun _ => .error (.simple "unused")) (fun _ => .error (.simple "unused"))
      (fun _ _ _ => .ok ())).1.mpr (by decide)

/-! ## C1: create handlers (LB pool, router, LB member, baremetal instance)

Each create handler calls the SDK create, takes `results.Tasks[0]` (a panic
when the slice is empty), passes a checker closure together with the fixed
timeout constant to the SDK poller, and on success calls `d.SetId` with the
ID the poller returned.  The SDK calls are oracle parameters. -/

/-- The checker closure of `resourceLBPoolCreate`: get the task, then
`lbpools.ExtractPoolIDFromTask`. -/
def lbPoolCreateChecker (getTask : String → Except GoErr TaskInfo)
    (extractPoolID : TaskInfo → Except GoErr String) (task : String) :
    Except GoErr String :=
  match getTask task with
  | .error e => .error (.wrap "cannot get task" e)
  | .ok taskInfo =>
    match extractPoolID taskInfo with
    | .error e => .error (.wrap "cannot retrieve LBPool ID from task info" e)
    | .ok lbPoolID => .ok lbPoolID

/-- `resourceLBPoolCreate` after the option assembly: create call, first
task ID, poll with `LBPoolsCreateTimeout`, `d.SetId` on success. -/
def resourceLBPoolCreate (create : Except GoErr TaskResults)
    (getTask : String → Except GoErr TaskInfo)
    (extractPoolID : TaskInfo → Except GoErr String)
    (wait : WaitOracle String) : HandlerOutcome :=
  match create with
  | .error e => .failure (.fromErr e)
  | .ok results =>
    match results.Tasks with
    | [] => .panic
    | taskID :: _ =>
      match wait taskID LBPoolsCreateTimeout (lbPoolCreateChecker getTask extractPoolID) with
      | .error e => .failure (.fromErr e)
      | .ok lbPoolID => .success lbPoolID

/-- The checker closure of `resourceRouterCreate`
(`routers.ExtractRouterIDFromTask`). -/
def routerCreateChecker (getTask : String → Except GoErr TaskInfo)
    (extractRouterID : TaskInfo → Except GoErr String) (task : String) :
    Except GoErr String :=
  match getTask task with
  | .error e => .error (.wrap "cannot get task" e)
  | .ok taskInfo =>
    match extractRouterID taskInfo with
    | .error e => .error (.wrap "cannot retrieve Router ID from task info" e)
    | .ok routerID => .ok routerID

/-- `resourceRouterCreate` after the option assembly: create call, first
task ID, poll with `RouterCreatingTimeout`, `d.SetId` on success. -/
def resourceRouterCreate (create : Except GoErr TaskResults)
    (getTask : String → Except GoErr TaskInfo)
    (extractRouterID : TaskInfo → Except GoErr String)
    (wait : WaitOracle String) : HandlerOutcome :=
  match create with
  | .error e => .failure (.fromErr e)
  | .ok results =>
    match results.Tasks with
    | [] => .panic
    | taskID :: _ =>
      match wait taskID RouterCreatingTimeout (routerCreateChecker getTask extractRouterID) with
      | .error e => .failure (.fromErr e)
      | .ok routerID => .success routerID

/-- The checker closure of `resourceLBMemberCreate`
(`lbpools.ExtractPoolMemberIDFromTask`). -/
def lbMemberCreateChecker (getTask : String → Except GoErr TaskInfo)
    (extractMemberID : TaskInfo → Except GoErr String) (task : String) :
    Except GoErr String :=
  match getTask task with
  | .error e => .error (.wrap "cannot get task" e)
  | .ok taskInfo =>
    match extractMemberID taskInfo with
    | .error e => .error (.wrap "cannot retrieve LBMember ID from task info" e)
    | .ok pmID => .ok pmID

/-- `resourceLBMemberCreate` after the option assembly: `CreateMember`
call, first task ID, poll with `LBPoolsCreateTimeout`, `d.SetId` on
success. -/
def resourceLBMemberCreate (createMember : Except GoErr TaskResults)
    (getTask : String → Except GoErr TaskInfo)
    (extractMemberID : TaskInfo → Except GoErr String)
    (wait : WaitOracle String) : HandlerOutcome :=
  match createMember with
  | .error e => .failure (.fromErr e)
  | .ok results =>
    match results.Tasks with
    | [] => .panic
    | taskID :: _ =>
      match wait taskID LBPoolsCreateTimeout (lbMemberCreateChecker getTask extractMemberID) with
      | .error e => .failure (.fromErr e)
      | .ok pmID => .success pmID

/-- The checker closure of `resourceBmInstanceCreate`
(`instances.ExtractInstanceIDFromTask`). -/
def bmInstanceCreateChecker (getTask : String → Except GoErr TaskInfo)
    (extractInstanceID : TaskInfo → Except GoErr String) (task : String) :
    Except GoErr String :=
  match getTask task with
  | .error e => .error (.wrap "cannot get task" e)
  | .ok taskInfo =>
    match extractInstanceID taskInfo with
    | .error e => .error (.wrap "cannot retrieve Instance ID from task info" e)
    | .ok instanceID => .ok instanceID

/-- `resourceBmInstanceCreate` after the option assembly: create call,
first task ID, poll with `BmInstanceCreatingTimeout`, `d.SetId` on
success. -/
def resourceBmInstanceCreate (create : Except GoErr TaskResults)
    (getTask : String → Except GoErr TaskInfo)
    (extractInstanceID : TaskInfo → Except GoErr String)
    (wait : WaitOracle String) : HandlerOutcome :=
  match create with
  | .error e => .failure (.fromErr e)
  | .ok results =>
    match results.Tasks with
    | [] => .panic
    | taskID :: _ =>
      match wait taskID BmInstanceCreatingTimeout (bmInstanceCreateChecker getTask extractInstanceID) with
      | .error e => .failure (.fromErr e)
      | .ok instanceID => .success instanceID

/-- The LB pool create checker succeeds with `id` iff the task fetch
succeeds and the ID extraction from the task metadata yields `id`. -/
theorem lbPoolCreateCheckerOk (g : String → Except GoErr TaskInfo)
    (x : TaskInfo → Except GoErr String) (task id : String) :
    lbPoolCreateChecker g x task = .ok id ↔
      ∃ info, g task = .ok info ∧ x info = .ok id := by
  unfold lbPoolCreateChecker
  cases hg : g task with
  | error e => simp [hg]
  | ok info =>
    cases hx : x info with
    | error e => simp [hg, hx]
    | ok id2 => simp [hg, hx]

/-- Router create checker characterization (as for the LB pool). -/
theorem routerCreateCheckerOk (g : String → Except GoErr TaskInfo)
    (x : TaskInfo → Except GoErr String) (task id : String) :
    routerCreateChecker g x task = .ok id ↔
      ∃ info, g task = .ok info ∧ x info = .ok id := by
  unfold routerCreateChecker
  cases hg : g task with
  | error e => simp [hg]
  | ok info =>
    cases hx : x info with
    | error e => simp [hg, hx]
    | ok id2 => simp [hg, hx]

/-- LB member create checker characterization. -/
theorem lbMemberCreateCheckerOk (g : String → Except GoErr TaskInfo)
    (x : TaskInfo → Except GoErr String) (task id : String) :
    lbMemberCreateChecker g x task = .ok id ↔
      ∃ info, g task = .ok info ∧ x info = .ok id := by
  unfold lbMemberCreateChecker
  cases hg : g task with
  | error e => simp [hg]
  | ok info =>
    cases hx : x info with
    | error e => simp [hg, hx]
    | ok id2 => simp [hg, hx]

/-- Baremetal instance create checker characterization. -/
theorem bmInstanceCreateCheckerOk (g : String → Except GoErr TaskInfo)
    (x : TaskInfo → Except GoErr String) (task id : String) :
    bmInstanceCreateChecker g x task = .ok id ↔
      ∃ info, g task = .ok info ∧ x info = .ok id := by
  unfold bmInstanceCreateChecker
  cases hg : g task with
  | error e => simp [hg]
  | ok info =>
    cases hx : x info with
    | error e => simp [hg, hx]
    | ok id2 => simp [hg, hx]

/-- C1: for each create handler (LB pool, router, LB member, baremetal
instance): a failed SDK create is returned as a diagnostic with no resource
ID set; on a successful create the first task ID is polled with the
handler's fixed timeout and the handler sets the resource ID to the ID the
poll returned, or returns the poll error as a diagnostic without setting the
ID; the poll checker extracts the resource ID from the completed task's
metadata. -/
theorem C1_create_handlers :
    ((∀ g x w e, resourceLBPoolCreate (.error e) g x w = .failure (.fromErr e)) ∧
     (∀ g x w t ts id, w t LBPoolsCreateTimeout (lbPoolCreateChecker g x) = .ok id →
       resourceLBPoolCreate (.ok ⟨t :: ts⟩) g x w = .success id) ∧
     (∀ g x w t ts e, w t LBPoolsCreateTimeout (lbPoolCreateChecker g x) = .error e →
       resourceLBPoolCreate (.ok ⟨t :: ts⟩) g x w = .failure (.fromErr e)) ∧
     (∀ g x task id, lbPoolCreateChecker g x task = .ok id ↔
       ∃ info, g task = .ok info ∧ x info = .ok id)) ∧
    ((∀ g x w e, resourceRouterCreate (.error e) g x w = .failure (.fromErr e)) ∧
     (∀ g x w t ts id, w t RouterCreatingTimeout (routerCreateChecker g x) = .ok id →
       resourceRouterCreate (.ok ⟨t :: ts⟩) g x w = .success id) ∧
     (∀ g x w t ts e, w t RouterCreatingTimeout (routerCreateChecker g x) = .error e →
       resourceRouterCreate (.ok ⟨t :: ts⟩) g x w = .failure (.fromErr e)) ∧
     (∀ g x task id, routerCreateChecker g x task = .ok id ↔
       ∃ info, g task = .ok info ∧ x info = .ok id)) ∧
    ((∀ g x w e, resourceLBMemberCreate (.error e) g x w = .failure (.fromErr e)) ∧
     (∀ g x w t ts id, w t LBPoolsCreateTimeout (lbMemberCreateChecker g x) = .ok id →
       resourceLBMemberCreate (.ok ⟨t :: ts⟩) g x w = .success id) ∧
     (∀ g x w t ts e, w t LBPoolsCreateTimeout (lbMemberCreateChecker g x) = .error e →
       resourceLBMemberCreate (.ok ⟨t :: ts⟩) g x w = .failure (.fromErr e)) ∧
     (∀ g x task id, lbMemberCreateChecker g x task = .ok id ↔
       ∃ info, g task = .ok info ∧ x info = .ok id)) ∧
    ((∀ g x w e, resourceBmInstanceCreate (.error e) g x w = .failure (.fromErr e)) ∧
     (∀ g x w t ts id, w t BmInstanceCreatingTimeout (bmInstanceCreateChecker g x) = .ok id →
       resourceBmInstanceCreate (.ok ⟨t :: ts⟩) g x w = .success id) ∧
     (∀ g x w t ts e, w t BmInstanceCreatingTimeout (bmInstanceCreateChecker g x) = .error e →
       resourceBmInstanceCreate (.ok ⟨t :: ts⟩) g x w = .failure (.fromErr e)) ∧
     (∀ g x task id, bmInstanceCreateChecker g x task = .ok id ↔
       ∃ info, g task = .ok info ∧ x info = .ok id)) := by
  refine ⟨⟨fun g x w e => rfl, ?_, ?_, lbPoolCreateCheckerOk⟩,
          ⟨fun g x w e => rfl, ?_, ?_, routerCreateCheckerOk⟩,
          ⟨fun g x w e => rfl, ?_, ?_, lbMemberCreateCheckerOk⟩,
          ⟨fun g x w e => rfl, ?_, ?_, bmInstanceCreateCheckerOk⟩⟩ <;>
    (intro g x w t ts v h
     simp [resourceLBPoolCreate, resourceRouterCreate, resourceLBMemberCreate,
       resourceBmInstanceCreate, h])

/-- C1 witness: with oracles whose poll runs the checker once, the LB pool
create sets the extracted ID, and a failing poll on the router create is
returned as a diagnostic. -/
theorem C1_create_handlers_witness :
    resourceLBPoolCreate (.ok ⟨["t1"]⟩) (fun _ => .ok ⟨"ti"⟩) (fun _ => .ok "pid")
      (fun t _ c => c t) = .success "pid" ∧
    resourceRouterCreate (.ok ⟨["t2"]⟩) (fun _ => .ok ⟨"ti"⟩) (fun _ => .ok "rid")
      (fun _ _ _ => .error (.simple "timeout")) = .failure (.fromErr (.simple "timeout")) := by
  exact ⟨C1_create_handlers.1.2.1 _ _ _ "t1" [] "pid" rfl,
         C1_create_handlers.2.1.2.2.1 _ _ _ "t2" [] (.simple "timeout") rfl⟩

/-! ## C2 / C3: delete handlers and their polling checkers -/

/-- The SDK router object returned by `routers.Get` (opaque: the delete
checker only tests whether the `Get` succeeded). -/
structure Router where
  ID : String
deriving DecidableEq, Repr

/-- The SDK instance object returned by `instances.Get` (opaque). -/
structure CloudInstance where
  ID : String
deriving DecidableEq, Repr

/-- The delete checker of `resourceRouterDelete`: `routers.Get` succeeding
means the router still exists (error); a 404 in the error chain means the
delete completed (`nil, nil`); any other error is wrapped and returned. -/
def routerDeleteChecker (get : String → Except GoErr Router) (routerID : String)
    (_task : String) : Except GoErr Unit :=
  match get routerID with
  | .ok _ => .error (.simple ("cannot delete router with ID: " ++ routerID))
  | .error e =>
    if e.is404 then .ok ()
    else .error (.wrap "extracting Router resource error" e)

/-- `resourceRouterDelete`: the delete call's error is returned directly
(`diag.FromErr`); otherwise poll the first task with `RouterDeleting`,
and on success clear the resource ID (`d.SetId("")`, modelled as
`.success ""`). -/
def resourceRouterDelete (deleteCall : Except GoErr TaskResults)
    (get : String → Except GoErr Router) (wait : WaitOracle Unit)
    (routerID : String) : HandlerOutcome :=
  match deleteCall with
  | .error e => .failure (.fromErr e)
  | .ok results =>
    match results.Tasks with
    | [] => .panic
    | taskID :: _ =>
      match wait taskID RouterDeleting (routerDeleteChecker get routerID) with
      | .error e => .failure (.fromErr e)
      | .ok _ => .success ""

/-- The delete checker of `resourceLBPoolDelete` (same shape over
`lbpools.Get`). -/
def lbPoolDeleteChecker (getPool : String → Except GoErr LBPool) (id : String)
    (_task : String) : Except GoErr Unit :=
  match getPool id with
  | .ok _ => .error (.simple ("cannot delete LBPool with ID: " ++ id))
  | .error e =>
    if e.is404 then .ok ()
    else .error (.wrap "extracting LBPool resource error" e)

/-- `resourceLBPoolDelete`: when the delete call fails, the error is
returned only if it is NOT a 404 (`if !errors.As(err, &errDefault404)`); on
a 404 the handler does not return and falls through to `results.Tasks[0]`
with a nil `results` - a runtime panic.  Otherwise poll the first task with
`LBPoolsCreateTimeout`; on success clear the resource ID. -/
def resourceLBPoolDelete (deleteCall : Except GoErr TaskResults)
    (getPool : String → Except GoErr LBPool) (wait : WaitOracle Unit)
    (id : String) : HandlerOutcome :=
  match deleteCall with
  | .error e =>
    if e.is404 then .panic
    else .failure (.fromErr e)
  | .ok results =>
    match results.Tasks with
    | [] => .panic
    | taskID :: _ =>
      match wait taskID LBPoolsCreateTimeout (lbPoolDeleteChecker getPool id) with
      | .error e => .failure (.fromErr e)
      | .ok _ => .success ""

/-- The delete checker of `resourceBmInstanceDelete` (same shape over
`instances.Get`). -/
def bmInstanceDeleteChecker (get : String → Except GoErr CloudInstance)
    (instanceID : String) (_task : String) : Except GoErr Unit :=
  match get instanceID with
  | .ok _ => .error (.simple ("cannot delete instance with ID: " ++ instanceID))
  | .error e =>
    if e.is404 then .ok ()
    else .error (.wrap "extracting Instance resource error" e)

/-- `resourceBmInstanceDelete`: delete errors are returned directly; then
poll the first task with `BmInstanceDeleting`; on success clear the resource
ID. -/
def resourceBmInstanceDelete (deleteCall : Except GoErr TaskResults)
    (get : String → Except GoErr CloudInstance) (wait : WaitOracle Unit)
    (instanceID : String) : HandlerOutcome :=
  match deleteCall with
  | .error e => .failure (.fromErr e)
  | .ok results =>
    match results.Tasks with
    | [] => .panic
    | taskID :: _ =>
      match wait taskID BmInstanceDeleting (bmInstanceDeleteChecker get instanceID) with
      | .error e => .failure (.fromErr e)
      | .ok _ => .success ""

/-- The delete checker of `resourceLBMemberDelete`: errors from the pool
`Get` are wrapped; the member still appearing in `pool.Members` is an
error; otherwise `nil, nil`. -/
def lbMemberDeleteChecker (getPool : String → Except GoErr LBPool)
    (pid mid : String) (_task : String) : Except GoErr Unit :=
  match getPool pid with
  | .error e => .error (.wrap "extracting LBPool resource error" e)
  | .ok pool =>
    if pool.Members.any (fun pm => pm.ID = mid) then
      .error (.simple ("pool member " ++ mid ++ " still exist"))
    else .ok ()

/-- `resourceLBMemberDelete`: a 404 from the `DeleteMember` call is handled
by clearing the resource ID and returning without a diagnostic; other
delete errors are returned directly; otherwise poll the first task with
`LBPoolsCreateTimeout` and clear the ID on success. -/
def resourceLBMemberDelete (deleteMember : Except GoErr TaskResults)
    (getPool : String → Except GoErr LBPool) (wait : WaitOracle Unit)
    (pid mid : String) : HandlerOutcome :=
  match deleteMember with
  | .error e =>
    if e.is404 then .success ""
    else .failure (.fromErr e)
  | .ok results =>
    match results.Tasks with
    | [] => .panic
    | taskID :: _ =>
      match wait taskID LBPoolsCreateTimeout (lbMemberDeleteChecker getPool pid mid) with
      | .error e => .failure (.fromErr e)
      | .ok _ => .success ""

/-- C2 counterexample: a typed 404 from the delete SDK call is NOT
propagated as a diagnostic: the LB member delete handler turns it into
success with the resource ID cleared, and the LB pool delete handler
continues past it into a runtime panic. -/
theorem C2_counterexample :
    (resourceLBMemberDelete (.error (.default404 "member not found"))
        (fun _ => .error (.simple "unused")) (fun _ _ _ => .ok ()) "pool1" "m1"
      = .success "") ∧
    (resourceLBMemberDelete (.error (.default404 "member not found"))
        (fun _ => .error (.simple "unused")) (fun _ _ _ => .ok ()) "pool1" "m1"
      ≠ .failure (.fromErr (.default404 "member not found"))) ∧
    (resourceLBPoolDelete (.error (.default404 "pool not found"))
        (fun _ => .error (.simple "unused")) (fun _ _ _ => .ok ()) "p1"
      = .panic) := by
  refine ⟨rfl, ?_, rfl⟩
  intro h
  simp [resourceLBMemberDelete, GoErr.is404] at h

/-- C2 (amended): every non-404 error of the delete SDK call is propagated
directly as a diagnostic by all four delete handlers, and the router and
baremetal instance delete handlers propagate even the typed 404; but the LB
member delete handler converts a 404 from the delete call into success
(clearing the resource ID without a diagnostic), and the LB pool delete
handler continues executing past a 404 into a runtime panic on the nil
result. -/
theorem C2_delete_error_propagation_amended :
    (∀ (g : String → Except GoErr LBPool) w pid mid e, e.is404 = false →
      resourceLBMemberDelete (.error e) g w pid mid = .failure (.fromErr e)) ∧
    (∀ (g : String → Except GoErr LBPool) w pid mid e, e.is404 = true →
      resourceLBMemberDelete (.error e) g w pid mid = .success "") ∧
    (∀ (g : String → Except GoErr LBPool) w id e, e.is404 = false →
      resourceLBPoolDelete (.error e) g w id = .failure (.fromErr e)) ∧
    (∀ (g : String → Except GoErr LBPool) w id e, e.is404 = true →
      resourceLBPoolDelete (.error e) g w id = .panic) ∧
    (∀ (g : String → Except GoErr Router) w rid e,
      resourceRouterDelete (.error e) g w rid = .failure (.fromErr e)) ∧
    (∀ (g : String → Except GoErr CloudInstance) w iid e,
      resourceBmInstanceDelete (.error e) g w iid = .failure (.fromErr e)) := by
  refine ⟨?_, ?_, ?_, ?_, fun g w rid e => rfl, fun g w iid e => rfl⟩ <;>
    (intro g w a b
     first
     | (intro h
        simp [resourceLBMemberDelete, resourceLBPoolDelete, h])
     | (intro e h
        simp [resourceLBMemberDelete, resourceLBPoolDelete, h]))

/-- C2 witness: the amended propagation applied at concrete errors (a plain
error and a wrapped 404). -/
theorem C2_delete_error_propagation_amended_witness :
    resourceLBMemberDelete (.error (.simple "boom"))
        (fun _ => .error (.simple "unused")) (fun _ _ _ => .ok ()) "p" "m"
      = .failure (.fromErr (.simple "boom")) ∧
    resourceLBMemberDelete (.error (.wrap "outer" (.default404 "nf")))
        (fun _ => .error (.simple "unused")) (fun _ _ _ => .ok ()) "p" "m"
      = .success "" ∧
    resourceLBPoolDelete (.error (.simple "boom"))
        (fun _ => .error (.simple "unused")) (fun _ _ _ => .ok ()) "p"
      = .failure (.fromErr (.simple "boom")) ∧
    resourceLBPoolDelete (.error (.default404 "nf"))
        (fun _ => .error (.simple "unused")) (fun _ _ _ => .ok ()) "p"
      = .panic := by
  exact ⟨C2_delete_error_propagation_amended.1 _ _ "p" "m" (.simple "boom") rfl,
         C2_delete_error_propagation_amended.2.1 _ _ "p" "m" (.wrap "outer" (.default404 "nf")) rfl,
         C2_delete_error_propagation_amended.2.2.1 _ _ "p" (.simple "boom") rfl,
         C2_delete_error_propagation_amended.2.2.2.1 _ _ "p" (.default404 "nf") rfl⟩

/-- C3: for the router, LB pool and baremetal instance delete handlers, the
polling checker succeeds exactly when the subsequent `Get` fails with the
typed 404 in its chain; it errors when the `Get` succeeds (resource still
exists) and when the `Get` fails with any other error; and an overall
successful poll makes the handler clear the Terraform resource ID to the
empty string. -/
theorem C3_delete_checkers :
    ((∀ g rid task, routerDeleteChecker g rid task = .ok () ↔
        ∃ e, g rid = .error e ∧ e.is404 = true) ∧
     (∀ g rid task r, g rid = .ok r → routerDeleteChecker g rid task
        = .error (.simple ("cannot delete router with ID: " ++ rid))) ∧
     (∀ g rid task e, g rid = .error e → e.is404 = false →
        routerDeleteChecker g rid task = .error (.wrap "extracting Router resource error" e)) ∧
     (∀ g w rid t ts, w t RouterDeleting (routerDeleteChecker g rid) = .ok () →
        resourceRouterDelete (.ok ⟨t :: ts⟩) g w rid = .success "")) ∧
    ((∀ g id task, lbPoolDeleteChecker g id task = .ok () ↔
        ∃ e, g id = .error e ∧ e.is404 = true) ∧
     (∀ g id task r, g id = .ok r → lbPoolDeleteChecker g id task
        = .error (.simple ("cannot delete LBPool with ID: " ++ id))) ∧
     (∀ g id task e, g id = .error e → e.is404 = false →
        lbPoolDeleteChecker g id task = .error (.wrap "extracting LBPool resource error" e)) ∧
     (∀ g w id t ts, w t LBPoolsCreateTimeout (lbPoolDeleteChecker g id) = .ok () →
        resourceLBPoolDelete (.ok ⟨t :: ts⟩) g w id = .success "")) ∧
    ((∀ g iid task, bmInstanceDeleteChecker g iid task = .ok () ↔
        ∃ e, g iid = .error e ∧ e.is404 = true) ∧
     (∀ g iid task r, g iid = .ok r → bmInstanceDeleteChecker g iid task
        = .error (.simple ("cannot delete instance with ID: " ++ iid))) ∧
     (∀ g iid task e, g iid = .error e → e.is404 = false →
        bmInstanceDeleteChecker g iid task = .error (.wrap "extracting Instance resource error" e)) ∧
     (∀ g w iid t ts, w t BmInstanceDeleting (bmInstanceDeleteChecker g iid) = .ok () →
        resourceBmInstanceDelete (.ok ⟨t :: ts⟩) g w iid = .success "")) := by
  refine ⟨⟨?_, ?_, ?_, ?_⟩, ⟨?_, ?_, ?_, ?_⟩, ⟨?_, ?_, ?_, ?_⟩⟩ <;>
    first
    | (intro g rid task
       cases hg : g rid with
       | ok r =>
         simp [routerDeleteChecker, lbPoolDeleteChecker, bmInstanceDeleteChecker, hg]
       | error e =>
         cases h4 : e.is404 <;>
           simp [routerDeleteChecker, lbPoolDeleteChecker, bmInstanceDeleteChecker, hg, h4])
    | (intro g rid task r hg
       simp [routerDeleteChecker, lbPoolDeleteChecker, bmInstanceDeleteChecker, hg])
    | (intro g rid task e hg h4
       simp [routerDeleteChecker, lbPoolDeleteChecker, bmInstanceDeleteChecker, hg, h4])
    | (intro g w rid t ts hw
       simp [resourceRouterDelete, resourceLBPoolDelete, resourceBmInstanceDelete, hw])

/-- C3 witness: a 404 from the router `Get` makes the checker succeed, a
successful `Get` makes it fail, and a successful poll clears the router
resource ID. -/
theorem C3_delete_checkers_witness :
    routerDeleteChecker (fun _ => .error (.default404 "nf")) "r1" "t" = .ok () ∧
    routerDeleteChecker (fun _ => .ok ⟨"r1"⟩) "r1" "t"
      = .error (.simple ("cannot delete router with ID: " ++ "r1")) ∧
    resourceRouterDelete (.ok ⟨["t1"]⟩) (fun _ => .error (.default404 "nf"))
      (fun t _ c => c t) "r1" = .success "" := by
  refine ⟨(C3_delete_checkers.1.1 (fun _ => .error (.default404 "nf")) "r1" "t").mpr
      ⟨.default404 "nf", rfl, rfl⟩,
    C3_delete_checkers.1.2.1 (fun _ => .ok ⟨"r1"⟩) "r1" "t" ⟨"r1"⟩ rfl,
    C3_delete_checkers.1.2.2.2 (fun _ => .error (.default404 "nf")) (fun t _ c => c t)
      "r1" "t1" [] rfl⟩

/-! ## C8: interface reconciliation in resourceRouterUpdate

`d.HasChange("interfaces")` branch: build `omap : map[subnetID]index` over
the old interfaces, walk the new interfaces deleting matched subnet IDs
from the map and attaching unmatched ones, then detach every interface left
in the map.  The Go map is modelled as an association list (insert
overwrites, delete removes the key); Go iterates the residual map in
unspecified order, the model iterates it in association order, which the
count-based claim does not depend on.  Only the `SubnetID` field of the
extracted interfaces is consulted, so interfaces are plain subnet IDs
here.  The calls are those made when every SDK call succeeds (an Attach or
Detach error aborts the loop early). -/

/-- An SDK call made by the reconciliation loop. -/
inductive RouterCall where
  | attach (subnetID : String)
  | detach (subnetID : String)
deriving DecidableEq, Repr

/-- Go map assignment `m[k] = v` on an association list. -/
def omapInsert : List (String × Nat) → String → Nat → List (String × Nat)
  | [], k, v => [(k, v)]
  | (k2, v2) :: rest, k, v =>
    if k2 = k then (k, v) :: rest else (k2, v2) :: omapInsert rest k v

/-- Go map read `v, ok := m[k]`. -/
def omapLookup : List (String × Nat) → String → Option Nat
  | [], _ => none
  | (k2, v2) :: rest, k => if k2 = k then some v2 else omapLookup rest k

/-- Go `delete(m, k)`. -/
def omapDelete : List (String × Nat) → String → List (String × Nat)
  | [], _ => []
  | (k2, v2) :: rest, k => if k2 = k then rest else (k2, v2) :: omapDelete rest k

/-- `for index, iface := range oifs { omap[iface.SubnetID] = index }`,
carrying the running index. -/
def buildOmapAux : List String → Nat → List (String × Nat) → List (String × Nat)
  | [], _, m => m
  | s :: rest, i, m => buildOmapAux rest (i + 1) (omapInsert m s i)

/-- The `omap` after the first loop of the interfaces branch. -/
def buildOmap (oSubs : List String) : List (String × Nat) :=
  buildOmapAux oSubs 0 []

/-- The loop over the new interfaces: a subnet ID found in `omap` is
deleted from it, an absent one causes an `Attach` call (in new-list
order). -/
def processNewIfaces : List (String × Nat) → List String →
    List (String × Nat) × List RouterCall
  | m, [] => (m, [])
  | m, s :: rest =>
    match omapLookup m s with
    | some _ => processNewIfaces (omapDelete m s) rest
    | none =>
      let r := processNewIfaces m rest
      (r.1, .attach s :: r.2)

/-- The SDK calls of the interfaces branch of `resourceRouterUpdate`:
attaches from the second loop, then `routers.Detach(client, routerID,
oifs[v].SubnetID)` for every entry `v` left in `omap`. -/
def routerUpdateInterfaceCalls (oSubs nSubs : List String) : List RouterCall :=
  let omap := buildOmap oSubs
  let r := processNewIfaces omap nSubs
  r.2 ++ r.1.map (fun p => RouterCall.detach (oSubs.getD p.2 ""))

/-- An absent key looks up to `none` iff it is not among the keys. -/
theorem omapLookupNoneIff (m : List (String × Nat)) (k : String) :
    omapLookup m k = none ↔ k ∉ m.map Prod.fst := by
  induction m with
  | nil => simp [omapLookup]
  | cons p rest ih =>
    obtain ⟨k2, v2⟩ := p
    by_cases h : k2 = k
    · subst h
      simp [omapLookup]
    · simp [omapLookup, h, ih, Ne.symm h]

/-- Deleting a different key does not change a lookup. -/
theorem omapLookupDeleteNe (m : List (String × Nat)) (k s : String) (h : k ≠ s) :
    omapLookup (omapDelete m s) k = omapLookup m k := by
  induction m with
  | nil => rfl
  | cons p rest ih =>
    obtain ⟨k2, v2⟩ := p
    by_cases h2 : k2 = s
    · subst h2
      simp [omapDelete, omapLookup, Ne.symm h]
    · by_cases h3 : k2 = k
      · subst h3
        simp [omapDelete, omapLookup, h2]
      · simp [omapDelete, omapLookup, h2, h3, ih]

/-- Inserting a fresh key appends the binding. -/
theorem omapInsertFresh (m : List (String × Nat)) (k : String) (v : Nat)
    (h : k ∉ m.map Prod.fst) : omapInsert m k v = m ++ [(k, v)] := by
  induction m with
  | nil => rfl
  | cons p rest ih =>
    obtain ⟨k2, v2⟩ := p
    simp only [List.map_cons, List.mem_cons, not_or] at h
    have hne : ¬ k2 = k := fun hh => h.1 hh.symm
    simp [omapInsert, hne, ih h.2]

/-- With duplicate-free keys, Go `delete` is a filter on the key. -/
theorem omapDeleteFilter (m : List (String × Nat)) (s : String)
    (h : (m.map Prod.fst).Nodup) :
    omapDelete m s = m.filter (fun p => !decide (p.1 = s)) := by
  induction m with
  | nil => rfl
  | cons p rest ih =>
    obtain ⟨k2, v2⟩ := p
    simp only [List.map_cons, List.nodup_cons] at h
    by_cases h2 : k2 = s
    · subst h2
      have hdel : omapDelete ((k2, v2) :: rest) k2 = rest := by simp [omapDelete]
      have hfil : List.filter (fun p => !decide (p.1 = k2)) ((k2, v2) :: rest)
          = List.filter (fun p => !decide (p.1 = k2)) rest := by
        simp [List.filter_cons]
      rw [hdel, hfil, List.filter_eq_self.mpr]
      intro p hp
      have hmem : p.1 ∈ rest.map Prod.fst := List.mem_map_of_mem Prod.fst hp
      simp only [Bool.not_eq_true', decide_eq_false_iff_not]
      intro heq
      exact h.1 (heq ▸ hmem)
    · simp [omapDelete, h2, List.filter_cons, ih h.2]

/-- With duplicate-free old subnet IDs every insert is fresh, so the map
accumulates the enumerated bindings in order. -/
theorem buildOmapAuxEq (oSubs : List String) :
    ∀ (i : Nat) (m : List (String × Nat)), oSubs.Nodup →
      (∀ s ∈ oSubs, s ∉ m.map Prod.fst) →
      buildOmapAux oSubs i m = m ++ (List.enumFrom i oSubs).map (fun p => (p.2, p.1)) := by
  induction oSubs with
  | nil => intro i m _ _; simp [buildOmapAux]
  | cons s rest ih =>
    intro i m hnd hdisj
    simp only [List.nodup_cons] at hnd
    have hfresh : s ∉ m.map Prod.fst := hdisj s (by simp)
    have hdisj2 : ∀ x ∈ rest, x ∉ (m ++ [(s, i)]).map Prod.fst := by
      intro x hx
      simp only [List.map_append, List.mem_append, List.map_cons, List.map_nil,
        List.mem_singleton, not_or]
      exact ⟨hdisj x (by simp [hx]), fun hh => hnd.1 (hh ▸ hx)⟩
    rw [buildOmapAux, omapInsertFresh m s i hfresh, ih (i + 1) (m ++ [(s, i)]) hnd.2 hdisj2]
    simp [List.enumFrom]

/-- The keys of `buildOmap oSubs` are `oSubs` itself (duplicate-free
input). -/
theorem buildOmapKeys (oSubs : List String) (ho : oSubs.Nodup) :
    (buildOmap oSubs).map Prod.fst = oSubs := by
  rw [buildOmap, buildOmapAuxEq oSubs 0 [] ho (by simp)]
  simp only [List.nil_append, List.map_map]
  have : ∀ (n : Nat) (l : List String),
      (List.enumFrom n l).map (Prod.fst ∘ fun p => (p.2, p.1)) = l := by
    intro n l
    induction l generalizing n with
    | nil => rfl
    | cons a t ihl => simp [List.enumFrom, ihl]
  exact this 0 oSubs

/-- Members of `enumFrom` carry their index: `l[p.1 - n] = p.2`. -/
theorem enumFromMemGetD (l : List String) :
    ∀ (n : Nat) (p : Nat × String), p ∈ List.enumFrom n l →
      n ≤ p.1 ∧ l.getD (p.1 - n) "" = p.2 := by
  induction l with
  | nil => intro n p hp; simp [List.enumFrom] at hp
  | cons a t ih =>
    intro n p hp
    simp only [List.enumFrom, List.mem_cons] at hp
    rcases hp with rfl | hp
    · simp
    · obtain ⟨h1, h2⟩ := ih (n + 1) p hp
      refine ⟨by omega, ?_⟩
      have : p.1 - n = (p.1 - (n + 1)) + 1 := by omega
      rw [this]
      simpa using h2

/-- The attach calls of the second loop: the new subnet IDs absent from the
map, in list order (duplicate-free new list). -/
theorem processNewIfacesCalls (nSubs : List String) :
    ∀ m : List (String × Nat), nSubs.Nodup →
      (processNewIfaces m nSubs).2
        = (nSubs.filter (fun x => (omapLookup m x).isNone)).map RouterCall.attach := by
  induction nSubs with
  | nil => intro m _; rfl
  | cons s rest ih =>
    intro m hnd
    simp only [List.nodup_cons] at hnd
    cases hl : omapLookup m s with
    | some v =>
      have hstep : (processNewIfaces m (s :: rest)).2
          = (processNewIfaces (omapDelete m s) rest).2 := by
        simp [processNewIfaces, hl]
      rw [hstep, ih (omapDelete m s) hnd.2]
      have hfil : rest.filter (fun x => (omapLookup (omapDelete m s) x).isNone)
          = rest.filter (fun x => (omapLookup m x).isNone) := by
        apply List.filter_congr
        intro x hx
        rw [omapLookupDeleteNe m x s (fun hh => hnd.1 (hh ▸ hx))]
      rw [hfil, List.filter_cons_of_neg (by simp [hl])]
    | none =>
      have hstep : (processNewIfaces m (s :: rest)).2
          = .attach s :: (processNewIfaces m rest).2 := by
        simp [processNewIfaces, hl]
      rw [hstep, ih m hnd.2, List.filter_cons_of_pos (by simp [hl])]
      rfl

/-- The residual map of the second loop: the old bindings whose key is not
among the new subnet IDs (duplicate-free keys). -/
theorem processNewIfacesResidual (nSubs : List String) :
    ∀ m : List (String × Nat), (m.map Prod.fst).Nodup →
      (processNewIfaces m nSubs).1
        = m.filter (fun p => !decide (p.1 ∈ nSubs)) := by
  induction nSubs with
  | nil => intro m _; simp [processNewIfaces]
  | cons s rest ih =>
    intro m hnd
    have hstep : m.filter (fun p => !decide (p.1 = s)) = omapDelete m s ∨
        (omapLookup m s = none ∧ m.filter (fun p => !decide (p.1 = s)) = m) := by
      cases hl : omapLookup m s with
      | some v => exact Or.inl (omapDeleteFilter m s hnd).symm
      | none =>
        refine Or.inr ⟨rfl, List.filter_eq_self.mpr ?_⟩
        intro p hp
        have hk : s ∉ m.map Prod.fst := (omapLookupNoneIff m s).mp hl
        simp only [Bool.not_eq_true', decide_eq_false_iff_not]
        intro heq
        exact hk (heq ▸ List.mem_map_of_mem Prod.fst hp)
    have hcomb : ∀ m2 : List (String × Nat),
        (m2.filter (fun p => !decide (p.1 = s))).filter (fun p => !decide (p.1 ∈ rest))
          = m2.filter (fun p => !decide (p.1 ∈ s :: rest)) := by
      intro m2
      rw [List.filter_filter]
      apply List.filter_congr
      intro p hp
      by_cases h1 : p.1 = s <;> by_cases h2 : p.1 ∈ rest <;> simp [h1, h2]
    cases hl : omapLookup m s with
    | some v =>
      have h1 : (processNewIfaces m (s :: rest)).1
          = (processNewIfaces (omapDelete m s) rest).1 := by
        simp [processNewIfaces, hl]
      have hkeys : ((omapDelete m s).map Prod.fst).Nodup := by
        rw [omapDeleteFilter m s hnd]
        have hsub : ((m.filter (fun p => !decide (p.1 = s))).map Prod.fst).Sublist
            (m.map Prod.fst) := (List.filter_sublist m).map Prod.fst
        exact hnd.sublist hsub
      rw [h1, ih (omapDelete m s) hkeys, omapDeleteFilter m s hnd, hcomb m]
    | none =>
      have h1 : (processNewIfaces m (s :: rest)).1 = (processNewIfaces m rest).1 := by
        simp [processNewIfaces, hl]
      have hself : m.filter (fun p => !decide (p.1 = s)) = m := by
        apply List.filter_eq_self.mpr
        intro p hp
        have hk : s ∉ m.map Prod.fst := (omapLookupNoneIff m s).mp hl
        simp only [Bool.not_eq_true', decide_eq_false_iff_not]
        intro heq
        exact hk (heq ▸ List.mem_map_of_mem Prod.fst hp)
      rw [h1, ih m hnd]
      rw [← hcomb m, hself]

/-- Occurrence count in a duplicate-free list. -/
theorem countNodup {α : Type} [DecidableEq α] (l : List α) (a : α) (h : l.Nodup) :
    l.count a = if a ∈ l then 1 else 0 := by
  by_cases hm : a ∈ l
  · rw [if_pos hm]
    exact List.count_eq_one_of_mem h hm
  · rw [if_neg hm]
    exact List.count_eq_zero_of_not_mem hm

/-- Counting an attach among mapped attaches counts the subnet ID. -/
theorem countAttachMap (xs : List String) (s : String) :
    (xs.map RouterCall.attach).count (.attach s) = xs.count s := by
  induction xs with
  | nil => rfl
  | cons a t ih => simp [List.count_cons, ih]

/-- No detach occurs among mapped attaches. -/
theorem countDetachOnAttachMap (xs : List String) (s : String) :
    (xs.map RouterCall.attach).count (.detach s) = 0 := by
  induction xs with
  | nil => rfl
  | cons a t ih => simp [List.count_cons, ih]

/-- Counting a detach among mapped detaches counts the subnet ID. -/
theorem countDetachMap (xs : List String) (s : String) :
    (xs.map RouterCall.detach).count (.detach s) = xs.count s := by
  induction xs with
  | nil => rfl
  | cons a t ih => simp [List.count_cons, ih]

/-- No attach occurs among mapped detaches. -/
theorem countAttachOnDetachMap (xs : List String) (s : String) :
    (xs.map RouterCall.detach).count (.attach s) = 0 := by
  induction xs with
  | nil => rfl
  | cons a t ih => simp [List.count_cons, ih]

/-- Mapping the key projection commutes with a key-only filter. -/
theorem mapFstFilter (m : List (String × Nat)) (q : String → Bool) :
    (m.filter (fun p => q p.1)).map Prod.fst = (m.map Prod.fst).filter q := by
  induction m with
  | nil => rfl
  | cons p t ihm =>
    by_cases hq : q p.1 <;> simp [List.filter_cons, hq, ihm]

/-- C8: on a router update with duplicate-free old and new interface sets,
the reconciliation attaches each subnet ID in the new set but not the old
exactly once, detaches each subnet ID in the old set but not the new
exactly once, and issues no call for subnet IDs in both (or neither). -/
theorem C8_router_interface_reconciliation (oSubs nSubs : List String)
    (ho : oSubs.Nodup) (hn : nSubs.Nodup) (s : String) :
    ((routerUpdateInterfaceCalls oSubs nSubs).count (.attach s)
      = if s ∈ nSubs ∧ s ∉ oSubs then 1 else 0) ∧
    ((routerUpdateInterfaceCalls oSubs nSubs).count (.detach s)
      = if s ∈ oSubs ∧ s ∉ nSubs then 1 else 0) := by
  have hkeysN : ((buildOmap oSubs).map Prod.fst).Nodup := by
    rw [buildOmapKeys oSubs ho]
    exact ho
  have hAtt : (processNewIfaces (buildOmap oSubs) nSubs).2
      = (nSubs.filter (fun x => !decide (x ∈ oSubs))).map RouterCall.attach := by
    rw [processNewIfacesCalls nSubs (buildOmap oSubs) hn]
    congr 1
    apply List.filter_congr
    intro x _
    by_cases hm : x ∈ oSubs
    · have hne : ¬ omapLookup (buildOmap oSubs) x = none := by
        rw [omapLookupNoneIff, buildOmapKeys oSubs ho]
        simpa using hm
      cases hcase : omapLookup (buildOmap oSubs) x with
      | none => exact absurd hcase hne
      | some v => simp [hm]
    · have hnone : omapLookup (buildOmap oSubs) x = none := by
        rw [omapLookupNoneIff, buildOmapKeys oSubs ho]
        simpa using hm
      simp [hnone, hm]
  have hResKeys : (processNewIfaces (buildOmap oSubs) nSubs).1.map Prod.fst
      = oSubs.filter (fun x => !decide (x ∈ nSubs)) := by
    rw [processNewIfacesResidual nSubs (buildOmap oSubs) hkeysN,
      mapFstFilter (buildOmap oSubs) (fun x => !decide (x ∈ nSubs)),
      buildOmapKeys oSubs ho]
  have hDet : (processNewIfaces (buildOmap oSubs) nSubs).1.map
        (fun p => RouterCall.detach (oSubs.getD p.2 ""))
      = ((processNewIfaces (buildOmap oSubs) nSubs).1.map Prod.fst).map
          RouterCall.detach := by
    rw [List.map_map]
    apply List.map_congr_left
    intro p hp
    have hsub : p ∈ buildOmap oSubs := by
      rw [processNewIfacesResidual nSubs (buildOmap oSubs) hkeysN] at hp
      exact List.mem_of_mem_filter hp
    rw [buildOmap, buildOmapAuxEq oSubs 0 [] ho (by simp)] at hsub
    simp only [List.nil_append, List.mem_map] at hsub
    obtain ⟨q, hq, rfl⟩ := hsub
    obtain ⟨h1, h2⟩ := enumFromMemGetD oSubs 0 q hq
    have h3 : oSubs.getD q.1 "" = q.2 := by simpa using h2
    show RouterCall.detach (List.getD oSubs q.1 "") = RouterCall.detach q.2
    rw [h3]
  have hCalls : routerUpdateInterfaceCalls oSubs nSubs
      = (nSubs.filter (fun x => !decide (x ∈ oSubs))).map RouterCall.attach
        ++ (oSubs.filter (fun x => !decide (x ∈ nSubs))).map RouterCall.detach := by
    rw [routerUpdateInterfaceCalls]
    rw [hDet, hResKeys, hAtt]
  constructor
  · rw [hCalls, List.count_append, countAttachMap, countAttachOnDetachMap,
      countNodup _ s (hn.filter _)]
    by_cases hc : s ∈ nSubs ∧ s ∉ oSubs
    · rw [if_pos (List.mem_filter.mpr ⟨hc.1, by simp [hc.2]⟩), if_pos hc]
    · rw [if_neg (fun hmem => hc (by
        obtain ⟨h1, h2⟩ := List.mem_filter.mp hmem
        exact ⟨h1, by simpa using h2⟩)), if_neg hc]
  · rw [hCalls, List.count_append, countDetachOnAttachMap, countDetachMap,
      countNodup _ s (ho.filter _)]
    by_cases hc : s ∈ oSubs ∧ s ∉ nSubs
    · rw [if_pos (List.mem_filter.mpr ⟨hc.1, by simp [hc.2]⟩), if_pos hc]
    · rw [if_neg (fun hmem => hc (by
        obtain ⟨h1, h2⟩ := List.mem_filter.mp hmem
        exact ⟨h1, by simpa using h2⟩)), if_neg hc]

/-- C8 witness: old interfaces `{a, b}`, new interfaces `{b, c}`: one
attach of `c`, one detach of `a`, and no call touching `b`. -/
theorem C8_router_interface_reconciliation_witness :
    (routerUpdateInterfaceCalls ["a", "b"] ["b", "c"]).count (.attach "c") = 1 ∧
    (routerUpdateInterfaceCalls ["a", "b"] ["b", "c"]).count (.detach "a") = 1 ∧
    (routerUpdateInterfaceCalls ["a", "b"] ["b", "c"]).count (.attach "b") = 0 ∧
    (routerUpdateInterfaceCalls ["a", "b"] ["b", "c"]).count (.detach "b") = 0 := by
  refine ⟨?_, ?_, ?_, ?_⟩
  · rw [(C8_router_interface_reconciliation ["a", "b"] ["b", "c"]
      (by decide) (by decide) "c").1]
    decide
  · rw [(C8_router_interface_reconciliation ["a", "b"] ["b", "c"]
      (by decide) (by decide) "a").2]
    decide
  · rw [(C8_router_interface_reconciliation ["a", "b"] ["b", "c"]
      (by decide) (by decide) "b").1]
    decide
  · rw [(C8_router_interface_reconciliation ["a", "b"] ["b", "c"]
      (by decide) (by decide) "b").2]
    decide

end EdgeCenter
